import Mathlib

/-!
Verification of the FinMet-Dashboard quantitative engine (src/App.tsx).

The numeric core of the dashboard is embedded shallowly over `ℚ`:
JavaScript `number` arithmetic is modelled by exact rational arithmetic
(the claims under study are about algebraic formulas, branch policy and
rounding modes, not about IEEE-754 rounding error), `Math.round` by
`⌊q + 1/2⌋`, and Python `int()` by truncation toward zero.
Record fields that the TypeScript interface declares as `number` are `ℚ`;
the integrity scanner, which runs on freshly parsed CSV rows where a field
may be `undefined`/`null`/`NaN`, uses `Option ℚ` fields (`none` = invalid).
The narrative summarizer takes a fractional power, so it is embedded over
`ℝ` with `Real.rpow`.
Division on `ℚ` is total (`x/0 = 0`) while JavaScript produces
NaN/Infinity; theorems about computed numeric values therefore carry the
spec's premises that keep every source denominator nonzero (at least two
rows with distinct years for a fit; discount rate other than −100%), and
statements that hold regardless of the values (series shape, control flow,
error policy) are proved without them.
-/

namespace FinMet

/-- A yearly financial record, as declared by `interface FinancialRecord`
in src/App.tsx (all metric fields are numbers). -/
structure FinancialRecord where
  Year : ℤ
  Revenue : ℚ
  NetIncome : ℚ
  FreeCashFlow : ℚ
  Budget : ℚ
deriving DecidableEq, Repr

/-- The metric names selectable in the forecast UI (`forecastMetric`). -/
inductive Metric where
  | Revenue
  | NetIncome
  | FreeCashFlow
  | Budget
deriving DecidableEq, Repr

/-- Dynamic field access `d[forecastMetric]` on a record. -/
def FinancialRecord.get (d : FinancialRecord) : Metric → ℚ
  | Metric.Revenue => d.Revenue
  | Metric.NetIncome => d.NetIncome
  | Metric.FreeCashFlow => d.FreeCashFlow
  | Metric.Budget => d.Budget

/-- JavaScript `Math.round`: round half toward positive infinity. -/
def jsRound (q : ℚ) : ℤ := ⌊q + 1/2⌋

/-- Python `int(...)` applied to a float: truncation toward zero. -/
def pyInt (q : ℚ) : ℤ := if 0 ≤ q then ⌊q⌋ else ⌈q⌉

/-- Least-squares slope as computed by the JS fallback paths
(src/App.tsx lines 376–381 and 544–548):
`slope = (n*sumXY - sumX*sumY) / (n*sumXX - sumX*sumX)` with `n = data.length`
(`sumXY` pairs `x[i]` with `y[i]`, hence the `zipWith`). -/
def slopeOf (x y : List ℚ) : ℚ :=
  ((x.length : ℚ) * (List.zipWith (· * ·) x y).sum - x.sum * y.sum) /
    ((x.length : ℚ) * (x.map (fun b => b * b)).sum - x.sum * x.sum)

/-- Least-squares intercept as computed by the JS fallback paths:
`intercept = (sumY - slope * sumX) / n`. -/
def interceptOf (x y : List ℚ) : ℚ :=
  (y.sum - slopeOf x y * x.sum) / (x.length : ℚ)

/-- Modelled from the spec: `numpy.polyfit(years, values, 1)` — the embedded
Python scripts delegate the fit to NumPy, whose source is not part of this
repository. Per its documentation it returns the degree-1 least-squares
polynomial, whose closed form is the textbook OLS slope/intercept pair
(the same pair the JS fallback computes explicitly). -/
def np_polyfit1 (x y : List ℚ) : ℚ × ℚ :=
  (slopeOf x y, interceptOf x y)

/-- One projected row produced by either forecast path before merging. -/
structure FuturePoint where
  Year : ℤ
  Forecast : ℤ
  High : ℤ
  Low : ℤ
deriving DecidableEq, Repr

/-- One row of the merged charting series (`merged` / `chartData` in
src/App.tsx). `none` models the literal `null` fields. -/
structure ChartPoint where
  Year : ℤ
  Historical : Option ℚ
  Forecast : Option ℚ
  High : Option ℚ
  Low : Option ℚ
  Confidence : Option (ℚ × ℚ)
deriving DecidableEq, Repr

/-- Pre-rounding `(val, high, low)` for 1-based projected index `i`, as
computed in the loop body of `runJSForecast` (src/App.tsx 387–397):
`val = slope*year + intercept`, `ratio = i / horizon`,
`currentSpreadPct = (sensitivity/100) * ratio`,
`high = val*(1+currentSpreadPct)`, `low = val*(1-currentSpreadPct)`. -/
def jsRawPoint (slope intercept : ℚ) (lastYear : ℤ) (horizon : ℕ)
    (sensPct : ℚ) (i : ℕ) : ℚ × ℚ × ℚ :=
  let val : ℚ := slope * ((lastYear : ℚ) + (i : ℚ)) + intercept
  let ratio : ℚ := (i : ℚ) / (horizon : ℚ)
  let currentSpreadPct : ℚ := sensPct / 100 * ratio
  (val, val * (1 + currentSpreadPct), val * (1 - currentSpreadPct))

/-- The `futurePoints` loop of `runJSForecast` (src/App.tsx 384–404):
for `i = 1..horizon`, push `{Year, Math.round(val), Math.round(high),
Math.round(low)}`. -/
def jsFuturePoints (slope intercept : ℚ) (lastYear : ℤ) (horizon : ℕ)
    (sensPct : ℚ) : List FuturePoint :=
  (List.range horizon).map (fun j =>
    let p := jsRawPoint slope intercept lastYear horizon sensPct (j + 1)
    ⟨lastYear + (j + 1), jsRound p.1, jsRound p.2.1, jsRound p.2.2⟩)

/-- Pre-rounding `(pred, high, low)` for 0-based loop index `i`, as computed
in the embedded Python forecast script (src/App.tsx 292–307):
`pred = slope*future_years[i] + intercept`, `ratio = (i+1)/len(predictions)`,
`current_spread_pct = sensitivity * ratio` (here `sensitivity` is already the
fraction `S/100` from the script preamble). -/
def pyRawPoint (slope intercept : ℚ) (lastYear : ℤ) (horizon : ℕ)
    (sensitivity : ℚ) (i : ℕ) : ℚ × ℚ × ℚ :=
  let pred : ℚ := slope * ((lastYear : ℚ) + ((i : ℚ) + 1)) + intercept
  let ratio : ℚ := ((i : ℚ) + 1) / (horizon : ℚ)
  let current_spread_pct : ℚ := sensitivity * ratio
  (pred, pred * (1 + current_spread_pct), pred * (1 - current_spread_pct))

/-- The `future` list built by the Python script (src/App.tsx 309–315):
Forecast, High and Low all pass through Python `int(...)`. -/
def pyFuturePoints (slope intercept : ℚ) (lastYear : ℤ) (horizon : ℕ)
    (sensitivity : ℚ) : List FuturePoint :=
  (List.range horizon).map (fun i =>
    let p := pyRawPoint slope intercept lastYear horizon sensitivity i
    ⟨lastYear + (i + 1), pyInt p.1, pyInt p.2.1, pyInt p.2.2⟩)

/-- Last historical year, `x[x.length - 1]` (defaulting like the JS code
would only be exercised on the empty list, which the claims exclude). -/
def lastYearOf (data : List FinancialRecord) : ℤ :=
  ((data.getLast?).map (·.Year)).getD 0

/-- Last historical value of the chosen metric,
`data[data.length - 1][forecastMetric]`. -/
def lastValOf (data : List FinancialRecord) (metric : Metric) : ℚ :=
  ((data.getLast?).map (·.get metric)).getD 0

/-- The merge step shared verbatim by both forecast paths
(src/App.tsx 328–353 and 407–432): one row per historical record with all
forecast fields `null`, one junction row at the last historical year with
every field equal to the last historical value and a degenerate confidence
tuple, then one row per projected point with `Historical` `null` and
`Confidence = [Low, High]`. -/
def mergeSeries (data : List FinancialRecord) (metric : Metric)
    (future : List FuturePoint) : List ChartPoint :=
  data.map (fun d => ⟨d.Year, some (d.get metric), none, none, none, none⟩)
    ++ [⟨lastYearOf data, some (lastValOf data metric), some (lastValOf data metric),
          some (lastValOf data metric), some (lastValOf data metric),
          some (lastValOf data metric, lastValOf data metric)⟩]
    ++ future.map (fun p =>
        ⟨p.Year, none, some (p.Forecast : ℚ), some (p.High : ℚ), some (p.Low : ℚ),
          some ((p.Low : ℚ), (p.High : ℚ))⟩)

/-- The JS fallback forecast `runJSForecast` (src/App.tsx 371–435):
fit by the explicit OLS sums over all records, project `horizon` years,
round with `Math.round`, then merge.  Note: it performs no minimum-length
check on the data. -/
def runJSForecast (data : List FinancialRecord) (metric : Metric)
    (horizon : ℕ) (sensPct : ℚ) : List ChartPoint :=
  let x := data.map (fun d => (d.Year : ℚ))
  let y := data.map (fun d => d.get metric)
  mergeSeries data metric
    (jsFuturePoints (slopeOf x y) (interceptOf x y) (lastYearOf data) horizon sensPct)

/-- The embedded Python forecast script (src/App.tsx 272–319): guarded by
`len(values) > 1`; on failure it returns `success: False` ("Insufficient
data"), modelled as `none`. -/
def pyForecastScript (data : List FinancialRecord) (metric : Metric)
    (horizon : ℕ) (sensPct : ℚ) : Option (List FuturePoint) :=
  let years := data.map (fun d => (d.Year : ℚ))
  let values := data.map (fun d => d.get metric)
  if 1 < values.length then
    some (pyFuturePoints (np_polyfit1 years values).1 (np_polyfit1 years values).2
      (lastYearOf data) horizon (sensPct / 100))
  else none

/-- The Python compute path end to end: script plus the merge performed by
`runForecast` on `output.success` (src/App.tsx 324–354). -/
def runPyForecast (data : List FinancialRecord) (metric : Metric)
    (horizon : ℕ) (sensPct : ℚ) : Option (List ChartPoint) :=
  (pyForecastScript data metric horizon sensPct).map (mergeSeries data metric)

/-- Which compute path served the visible result (`computeSource`). -/
inductive ComputeSource where
  | python
  | jsFallback
deriving DecidableEq, Repr

/-- The react state that `runForecast` may update:
`forecastData` and `computeSource`. -/
structure ForecastState where
  forecastData : List ChartPoint
  computeSource : Option ComputeSource
deriving DecidableEq, Repr

/-- Outcome of running the embedded Python forecast script:
it parsed and reported success, it parsed and reported failure
(`success: false`, e.g. insufficient data), or it threw. -/
inductive PyOutcome where
  | success (future : List FuturePoint)
  | failure (err : String)
  | exn (msg : String)
deriving DecidableEq, Repr

/-- State update performed by `runForecast` (src/App.tsx 321–368) once the
Python runtime has been consulted: on `output.success` the merged series is
stored and the source set to Python; when the script reports failure there
is no `else` branch, so nothing is written and the JS fallback is not
called; only a thrown exception reaches the `catch` that logs and invokes
`runJSForecast`. -/
def processForecastOutcome (prev : ForecastState) (data : List FinancialRecord)
    (metric : Metric) (horizon : ℕ) (sensPct : ℚ) : PyOutcome → ForecastState
  | PyOutcome.success future =>
      ⟨mergeSeries data metric future, some ComputeSource.python⟩
  | PyOutcome.failure _ => prev
  | PyOutcome.exn _ =>
      ⟨runJSForecast data metric horizon sensPct, some ComputeSource.jsFallback⟩

/-- One row of the valuation waterfall (`bridge`).  The JS objects omit
`isTotal` on the first two rows (undefined, i.e. falsy), modelled as
`false`; `contribution` is the percentage carried by the row (the code
formats the first two with `toFixed(1)` and hard-codes `'100.0'` on the
total row). -/
structure BridgeEntry where
  name : String
  value : ℤ
  contribution : ℚ
  isTotal : Bool
deriving DecidableEq, Repr

/-- The valuation result stored in react state
(`{sharePrice, waterfall}`). -/
structure ValuationResult where
  sharePrice : ℚ
  waterfall : List BridgeEntry
deriving DecidableEq, Repr

/-- JS `Number.prototype.toFixed(1)`, modelled as rounding to one decimal
place (the claims under study never depend on its tie behavior). -/
def toFixed1 (q : ℚ) : ℚ := (jsRound (q * 10) : ℚ) / 10

/-- Terminal-value policy, identical in both valuation paths
(src/App.tsx 475–478 and 563–568): Gordon growth when `wacc > termGrowth`,
otherwise the fixed exit multiple `fcf_5 * 15`. -/
def terminalValueOf (r g fcf5 : ℚ) : ℚ :=
  if g < r then fcf5 * (1 + g) / (r - g) else fcf5 * 15

/-- The 5-year FCF projection loop shared by both valuation paths:
`fcf_i = slope*(lastYear + i) + intercept` for `i = 1..5`. -/
def futureFCFs (slope intercept : ℚ) (lastYear : ℤ) : List ℚ :=
  (List.range 5).map (fun j => slope * ((lastYear : ℚ) + ((j : ℚ) + 1)) + intercept)

/-- Discounting: `discountedSum = Σ_{i=1..5} fcf_i / (1+r)^i`, as accumulated by the
projection loops of both valuation paths. -/
def discountedSumOf (r : ℚ) (fcfs : List ℚ) : ℚ :=
  ((List.range 5).map (fun j => fcfs.getD j 0 / (1 + r) ^ (j + 1))).sum

/-- The JS fallback valuation `runJSValuation` (src/App.tsx 538–597).
Returns `none` on empty data (the early `return`); otherwise fits FCF
against year, discounts 5 projected years and the terminal value, and
builds the 3-row waterfall.  `sharePrice` divides by `shares` with no
guard.  Caveat: division on `ℚ` is total (`x/0 = 0`) where the source
produces NaN/Infinity, so this definition agrees with the source only when
every denominator is nonzero — in particular when the record set has at
least two rows with distinct years (nonzero fit denominator, the RecordSet
invariant) and the discount rate is not −100%; theorems about produced
valuation results carry those premises. -/
def runJSValuation (data : List FinancialRecord) (waccPct tgPct netDebt shares : ℚ) :
    Option ValuationResult :=
  if data.length = 0 then none else
  let x := data.map (fun d => (d.Year : ℚ))
  let y := data.map (fun d => d.FreeCashFlow)
  let slope := slopeOf x y
  let intercept := interceptOf x y
  let lastYear := lastYearOf data
  let r := waccPct / 100
  let g := tgPct / 100
  let fcfs := futureFCFs slope intercept lastYear
  let discountedSum := discountedSumOf r fcfs
  let terminalValue := terminalValueOf r g (fcfs.getD 4 0)
  let discountedTV := terminalValue / (1 + r) ^ 5
  let enterpriseValue := discountedSum + discountedTV
  let equityValue := enterpriseValue - netDebt
  let sharePrice := equityValue / shares
  some ⟨sharePrice,
    [ ⟨ "Sum of FCFs", jsRound discountedSum,
        toFixed1 (discountedSum / enterpriseValue * 100), false⟩,
      ⟨ "Terminal Value", jsRound discountedTV,
        toFixed1 (discountedTV / enterpriseValue * 100), false⟩,
      ⟨ "Enterprise Value", jsRound enterpriseValue, 100, true⟩ ]⟩

/-- The embedded Python valuation script (src/App.tsx 449–497), guarded by
`len(fcf) > 1`; returns `(share_price, discounted_sum, discounted_tv,
enterprise_value)` on success.  `share_price` is `equity/shares` only when
`shares > 0`, else `0`. -/
def pyValuationScript (data : List FinancialRecord) (waccPct tgPct netDebt shares : ℚ) :
    Option (ℚ × ℚ × ℚ × ℚ) :=
  let years := data.map (fun d => (d.Year : ℚ))
  let fcf := data.map (fun d => d.FreeCashFlow)
  if 1 < fcf.length then
    let slope := (np_polyfit1 years fcf).1
    let intercept := (np_polyfit1 years fcf).2
    let last_year := lastYearOf data
    let wacc := waccPct / 100
    let term_growth := tgPct / 100
    let future_fcf := futureFCFs slope intercept last_year
    let discounted_sum := discountedSumOf wacc future_fcf
    let terminal_value := terminalValueOf wacc term_growth (future_fcf.getD 4 0)
    let discounted_tv := terminal_value / (1 + wacc) ^ 5
    let enterprise_value := discounted_sum + discounted_tv
    let equity_value := enterprise_value - netDebt
    let share_price := if 0 < shares then equity_value / shares else 0
    some (share_price, discounted_sum, discounted_tv, enterprise_value)
  else none

/-- The Python valuation path end to end: script output wrapped into the
waterfall by `runValuation` on `output.success` (src/App.tsx 501–523),
with `Math.round` on the three values and `toFixed(1)` / literal `'100.0'`
on the contributions — the same wrapper shape as the JS fallback. -/
def runPyValuation (data : List FinancialRecord) (waccPct tgPct netDebt shares : ℚ) :
    Option ValuationResult :=
  (pyValuationScript data waccPct tgPct netDebt shares).map (fun o =>
    ⟨o.1,
      [ ⟨ "Sum of FCFs", jsRound o.2.1, toFixed1 (o.2.1 / o.2.2.2 * 100), false⟩,
        ⟨ "Terminal Value", jsRound o.2.2.1, toFixed1 (o.2.2.1 / o.2.2.2 * 100), false⟩,
        ⟨ "Enterprise Value", jsRound o.2.2.2, 100, true⟩ ]⟩)

/-- A freshly parsed CSV row as the integrity scan sees it: the two
required columns may hold `undefined`/`null`/non-numbers, collapsed to
`none`. -/
structure RawRecord where
  Year : ℤ
  Revenue : Option ℚ
  NetIncome : Option ℚ
deriving DecidableEq, Repr

/-- The required columns, `checkCols = ['Revenue', 'Net Income']`. -/
inductive ReqCol where
  | Revenue
  | NetIncome
deriving DecidableEq, Repr

/-- Column access on a raw row. -/
def RawRecord.getCol (r : RawRecord) : ReqCol → Option ℚ
  | ReqCol.Revenue => r.Revenue
  | ReqCol.NetIncome => r.NetIncome

/-- The required-column list `checkCols` in source order. -/
def checkCols : List ReqCol := [ReqCol.Revenue, ReqCol.NetIncome]

/-- Body of the integrity-scan loop for one row (src/App.tsx 659–666):
for each required column, a missing/null/NaN value appends a finding
("Null value in row idx+1, col c", modelled as the pair `(idx+1, c)`) and
subtracts 5 from the running score. -/
def scanStep (acc : ℤ × List (ℕ × ReqCol)) (p : ℕ × RawRecord) : ℤ × List (ℕ × ReqCol) :=
  checkCols.foldl
    (fun acc2 col =>
      if p.2.getCol col = none then (acc2.1 - 5, acc2.2 ++ [(p.1 + 1, col)])
      else acc2)
    acc

/-- The data-integrity scan in `handleFileUpload` (src/App.tsx 652–670):
`integrityScore` starts at 100 and every row is scanned with `scanStep`.
There is no clamp of the score anywhere. -/
def scanIntegrity (rows : List RawRecord) : ℤ × List (ℕ × ReqCol) :=
  rows.enum.foldl scanStep (100, [])

/-- Number of missing required values in one row. -/
def rowNulls (r : RawRecord) : ℕ :=
  (checkCols.filter (fun c => r.getCol c = none)).length

/-- Total number of missing required values in a record set. -/
def countNulls (rows : List RawRecord) : ℕ :=
  (rows.map rowNulls).sum

/-- Selection `history` in `StrategicInsight` (src/App.tsx 114): the rows whose
`Historical` is set. -/
def historyOf (data : List ChartPoint) : List ChartPoint :=
  data.filter (fun d => d.Historical.isSome)

/-- Selection `forecast` in `StrategicInsight` (src/App.tsx 115): the rows whose
`Forecast` is set. -/
def forecastOf (data : List ChartPoint) : List ChartPoint :=
  data.filter (fun d => d.Forecast.isSome)

/-- Extraction `startVal = history[history.length - 1].Historical`
(src/App.tsx 119; only read once `history` is known nonempty). -/
def startValOf (data : List ChartPoint) : ℚ :=
  (((historyOf data).getLast?).bind (·.Historical)).getD 0

/-- Extraction `endVal = forecast[forecast.length - 1].Forecast` (src/App.tsx 120). -/
def endValOf (data : List ChartPoint) : ℚ :=
  (((forecastOf data).getLast?).bind (·.Forecast)).getD 0

/-- The numeric core of `StrategicInsight` (src/App.tsx 109–127): guards for
short data and missing history/forecast return `none` (the placeholder
sentences); otherwise the CAGR, the direction word and the strength word
that the templated commentary interpolates are returned.
`cagr = (Math.pow(endVal/startVal, 1/horizon) - 1) * 100`. -/
noncomputable def strategicInsight (data : List ChartPoint) (horizon : ℕ) :
    Option (ℝ × String × String) :=
  if data.length < 2 then none
  else if (historyOf data).length = 0 ∨ (forecastOf data).length = 0 then none
  else
    let cagr : ℝ :=
      (((endValOf data : ℝ) / (startValOf data : ℝ)) ^ ((1 : ℝ) / (horizon : ℝ)) - 1) * 100
    some (cagr,
      if 0 < cagr then "expansion" else "contraction",
      if 10 < |cagr| then "aggressive"
        else if 5 < |cagr| then "moderate" else "stable")

/-- Observation helper for the theorems: the band width `High - Low` of the
series row at index `k`, when both ends are present. -/
def spreadAt (out : List ChartPoint) (k : ℕ) : Option ℚ :=
  (out.get? k).bind (fun p => p.High.bind (fun h => p.Low.map (fun l => h - l)))

/-! ## Auxiliary lemmas -/

/-- Sum of the values of points lying on the line `y = 2x + 1`. -/
lemma sum_map_line (x : List ℚ) :
    (x.map (fun t => 2 * t + 1)).sum = 2 * x.sum + x.length := by
  induction x with
  | nil => simp
  | cons a t ih => simp [ih]; ring

/-- Cross sum `Σ xᵢ yᵢ` for points on the line `y = 2x + 1`. -/
lemma zip_map_line (x : List ℚ) :
    (List.zipWith (· * ·) x (x.map (fun t => 2 * t + 1))).sum
      = 2 * (x.map (fun b => b * b)).sum + x.sum := by
  induction x with
  | nil => simp
  | cons a t ih => simp [ih]; ring

/-- Sum `Σ (a - t)²` over a list, expanded. -/
lemma sum_sq_sub (a : ℚ) (x : List ℚ) :
    (x.map (fun t => (a - t) ^ 2)).sum
      = (x.length : ℚ) * a ^ 2 - 2 * a * x.sum + (x.map (fun b => b * b)).sum := by
  induction x with
  | nil => simp
  | cons b t ih => simp [ih]; ring

/-- Cons step for the OLS denominator `n·Σx² - (Σx)²`. -/
lemma den_cons (a : ℚ) (x : List ℚ) :
    ((a :: x).length : ℚ) * ((a :: x).map (fun b => b * b)).sum
        - (a :: x).sum * (a :: x).sum
      = ((x.length : ℚ) * (x.map (fun b => b * b)).sum - x.sum * x.sum)
        + (x.map (fun t => (a - t) ^ 2)).sum := by
  rw [sum_sq_sub]
  simp
  ring

/-- The OLS denominator is nonnegative for any list of abscissae. -/
lemma den_nonneg (x : List ℚ) :
    0 ≤ (x.length : ℚ) * (x.map (fun b => b * b)).sum - x.sum * x.sum := by
  induction x with
  | nil => simp
  | cons a t ih =>
    rw [den_cons]
    have hsq : 0 ≤ (t.map (fun s => (a - s) ^ 2)).sum := by
      apply List.sum_nonneg
      intro q hq
      obtain ⟨s, _, rfl⟩ := List.mem_map.mp hq
      positivity
    linarith

/-- With at least two distinct abscissae the OLS denominator is positive. -/
lemma den_pos {x : List ℚ} (hlen : 2 ≤ x.length) (hnd : x.Nodup) :
    0 < (x.length : ℚ) * (x.map (fun b => b * b)).sum - x.sum * x.sum := by
  match x, hlen with
  | a :: b :: t, _ =>
    rw [den_cons]
    have hab : a ≠ b := by
      intro h
      exact (List.nodup_cons.mp hnd).1 (h ▸ List.mem_cons_self b t)
    have h1 : 0 ≤ ((b :: t).length : ℚ) * ((b :: t).map (fun c => c * c)).sum
        - (b :: t).sum * (b :: t).sum := den_nonneg _
    have h2 : ((b :: t).map (fun s => (a - s) ^ 2)).sum
        = (a - b) ^ 2 + (t.map (fun s => (a - s) ^ 2)).sum := by
      simp
    have h3 : 0 ≤ (t.map (fun s => (a - s) ^ 2)).sum := by
      apply List.sum_nonneg
      intro q hq
      obtain ⟨s, _, rfl⟩ := List.mem_map.mp hq
      positivity
    have h4 : 0 < (a - b) ^ 2 := by
      have : a - b ≠ 0 := sub_ne_zero.mpr hab
      positivity
    rw [h2]
    linarith

/-- On the line `y = 2x + 1` with distinct abscissae, the fitted slope is 2. -/
lemma slope_on_line {x : List ℚ} (hlen : 2 ≤ x.length) (hnd : x.Nodup) :
    slopeOf x (x.map (fun t => 2 * t + 1)) = 2 := by
  have hD := den_pos hlen hnd
  unfold slopeOf
  rw [zip_map_line, sum_map_line]
  have hnum : (x.length : ℚ) * (2 * (x.map (fun b => b * b)).sum + x.sum)
      - x.sum * (2 * x.sum + x.length)
      = 2 * ((x.length : ℚ) * (x.map (fun b => b * b)).sum - x.sum * x.sum) := by
    ring
  rw [hnum]
  exact mul_div_cancel_right₀ 2 (ne_of_gt hD)

/-- On the line `y = 2x + 1` with distinct abscissae, the intercept is 1. -/
lemma intercept_on_line {x : List ℚ} (hlen : 2 ≤ x.length) (hnd : x.Nodup) :
    interceptOf x (x.map (fun t => 2 * t + 1)) = 1 := by
  have hn : (x.length : ℚ) ≠ 0 := by
    have h0 : x.length ≠ 0 := by omega
    exact_mod_cast h0
  unfold interceptOf
  rw [slope_on_line hlen hnd, sum_map_line]
  rw [show 2 * x.sum + (x.length : ℚ) - 2 * x.sum = (x.length : ℚ) by ring]
  exact div_self hn

/-! ## Claims -/

/-- C1: for parallel year/value sequences of equal length `n ≥ 2` with
distinct years, the trend fit computes
`slope = (n·Σxy − Σx·Σy) / (n·Σx² − (Σx)²)` and
`intercept = (Σy − slope·Σx)/n`; in particular, for points lying exactly on
the line `y = 2x + 1` it returns slope 2 and intercept 1 (exactly, in the
rational model). -/
theorem c1_trend_fit (x : List ℚ) (hlen : 2 ≤ x.length) (hnd : x.Nodup) :
    (∀ y : List ℚ,
      slopeOf x y =
        ((x.length : ℚ) * (List.zipWith (· * ·) x y).sum - x.sum * y.sum) /
          ((x.length : ℚ) * (x.map (fun b => b * b)).sum - x.sum * x.sum) ∧
      interceptOf x y = (y.sum - slopeOf x y * x.sum) / (x.length : ℚ)) ∧
    slopeOf x (x.map (fun t => 2 * t + 1)) = 2 ∧
    interceptOf x (x.map (fun t => 2 * t + 1)) = 1 :=
  ⟨fun _ => ⟨rfl, rfl⟩, slope_on_line hlen hnd, intercept_on_line hlen hnd⟩

/-- C1 witness: the fit over years `[0, 1]` (values on `y = 2x + 1`). -/
theorem c1_trend_fit_witness :
    2 ≤ ([0, 1] : List ℚ).length ∧ ([0, 1] : List ℚ).Nodup ∧
    (slopeOf [0, 1] (([0, 1] : List ℚ).map (fun t => 2 * t + 1)) = 2 ∧
     interceptOf [0, 1] (([0, 1] : List ℚ).map (fun t => 2 * t + 1)) = 1) :=
  ⟨by norm_num, by decide,
   (c1_trend_fit [0, 1] (by norm_num) (by decide)).2⟩

/-- C2: the terminal value is the Gordon perpetuity
`fcf_5*(1+g)/(wacc−g)` exactly when `wacc > terminalGrowth`, and the fixed
exit multiple `fcf_5 * 15` otherwise; with `wacc = 5%` and
`terminalGrowth = 8%` the multiple branch is taken, also through the full
`runJSValuation` pipeline (the Terminal Value bridge row holds the
discounted multiple, not the Gordon value). -/
theorem c2_terminal_value_policy :
    (∀ r g fcf5 : ℚ, terminalValueOf r g fcf5 =
        if g < r then fcf5 * (1 + g) / (r - g) else fcf5 * 15) ∧
    (∀ fcf5 : ℚ, terminalValueOf (5 / 100) (8 / 100) fcf5 = fcf5 * 15) ∧
    ((runJSValuation [⟨1, 0, 0, 10, 0⟩, ⟨2, 0, 0, 20, 0⟩] 5 8 0 1).map
        (fun res => (res.waterfall.map (·.value)).get? 1))
      = some (some (jsRound (70 * 15 / (1 + 5 / 100) ^ 5))) := by
  refine ⟨fun r g fcf5 => rfl, fun fcf5 => ?_, ?_⟩
  · unfold terminalValueOf
    rw [if_neg]
    norm_num
  · norm_num [runJSValuation, slopeOf, interceptOf, lastYearOf, futureFCFs,
      discountedSumOf, terminalValueOf, toFixed1, jsRound, List.range_succ]

/-- C3 counterexample: with records `(1,0) (2,1) (3,1)` for Revenue,
horizon 1 and sensitivity 0, the projected value is `5/3`; the Python path
emits `int(5/3) = 1` while the JS fallback emits `Math.round(5/3) = 2`, so
the two paths do NOT produce identical forecast series. -/
theorem c3_counterexample :
    (((runPyForecast [⟨1, 0, 0, 0, 0⟩, ⟨2, 1, 0, 0, 0⟩, ⟨3, 1, 0, 0, 0⟩]
          Metric.Revenue 1 0).getD []).get? 4).map (fun p => p.Forecast)
      = some (some 1) ∧
    ((runJSForecast [⟨1, 0, 0, 0, 0⟩, ⟨2, 1, 0, 0, 0⟩, ⟨3, 1, 0, 0, 0⟩]
          Metric.Revenue 1 0).get? 4).map (fun p => p.Forecast)
      = some (some 2) ∧
    runPyForecast [⟨1, 0, 0, 0, 0⟩, ⟨2, 1, 0, 0, 0⟩, ⟨3, 1, 0, 0, 0⟩]
        Metric.Revenue 1 0
      ≠ some (runJSForecast [⟨1, 0, 0, 0, 0⟩, ⟨2, 1, 0, 0, 0⟩, ⟨3, 1, 0, 0, 0⟩]
          Metric.Revenue 1 0) := by
  have hpy : (((runPyForecast [⟨1, 0, 0, 0, 0⟩, ⟨2, 1, 0, 0, 0⟩, ⟨3, 1, 0, 0, 0⟩]
        Metric.Revenue 1 0).getD []).get? 4).map (fun p => p.Forecast)
      = some (some 1) := by
    norm_num [runPyForecast, pyForecastScript, np_polyfit1, pyFuturePoints, pyRawPoint,
      pyInt, mergeSeries, lastYearOf, lastValOf, slopeOf, interceptOf,
      FinancialRecord.get, List.range_succ]
  have hjs : ((runJSForecast [⟨1, 0, 0, 0, 0⟩, ⟨2, 1, 0, 0, 0⟩, ⟨3, 1, 0, 0, 0⟩]
        Metric.Revenue 1 0).get? 4).map (fun p => p.Forecast)
      = some (some 2) := by
    norm_num [runJSForecast, jsFuturePoints, jsRawPoint, jsRound, mergeSeries,
      lastYearOf, lastValOf, slopeOf, interceptOf, FinancialRecord.get, List.range_succ]
  refine ⟨hpy, hjs, fun h => ?_⟩
  rw [h] at hpy
  simp only [Option.getD_some] at hpy
  have : some (some (1 : ℚ)) = some (some (2 : ℚ)) := hpy.symm.trans hjs
  simp at this

/-- C3 (amended): both paths compute the same pre-rounding forecast values
and bands — for any fitted line, the `(val, high, low)` triple of the JS
loop at 1-based index `j+1` equals the Python loop triple at 0-based index
`j` once the script's percent-to-fraction conversion is applied — and the
two valuation paths return identical results whenever the data has at least
two rows and `shares > 0`; the emitted forecast series differ only in the
display rounding (`Math.round` versus Python `int`). -/
theorem c3_paths_agree_prerounding (data : List FinancialRecord)
    (horizon : ℕ) (sensPct waccPct tgPct netDebt shares slope intercept : ℚ)
    (hlen : 1 < data.length) (hsh : 0 < shares) :
    (∀ j, j < horizon →
      jsRawPoint slope intercept (lastYearOf data) horizon sensPct (j + 1)
        = pyRawPoint slope intercept (lastYearOf data) horizon (sensPct / 100) j) ∧
    runPyValuation data waccPct tgPct netDebt shares
      = runJSValuation data waccPct tgPct netDebt shares := by
  constructor
  · intro j hj
    simp only [jsRawPoint, pyRawPoint, Prod.mk.injEq]
    push_cast
    refine ⟨by ring, by ring, by ring⟩
  · have hne : data.length ≠ 0 := by omega
    simp [runPyValuation, pyValuationScript, runJSValuation, np_polyfit1,
      hne, hlen, hsh]

/-- C3 amended-claim witness: two concrete records, `shares = 50`. -/
theorem c3_paths_agree_prerounding_witness :
    1 < ([⟨1, 0, 0, 10, 0⟩, ⟨2, 0, 0, 20, 0⟩] : List FinancialRecord).length ∧
    (0 : ℚ) < 50 ∧
    ((∀ j, j < 5 →
        jsRawPoint 10 0 (lastYearOf [⟨1, 0, 0, 10, 0⟩, ⟨2, 0, 0, 20, 0⟩]) 5 20 (j + 1)
          = pyRawPoint 10 0 (lastYearOf [⟨1, 0, 0, 10, 0⟩, ⟨2, 0, 0, 20, 0⟩]) 5 (20 / 100) j) ∧
      runPyValuation [⟨1, 0, 0, 10, 0⟩, ⟨2, 0, 0, 20, 0⟩] 10 (5 / 2) 150 50
        = runJSValuation [⟨1, 0, 0, 10, 0⟩, ⟨2, 0, 0, 20, 0⟩] 10 (5 / 2) 150 50) :=
  ⟨by norm_num, by norm_num,
   c3_paths_agree_prerounding [⟨1, 0, 0, 10, 0⟩, ⟨2, 0, 0, 20, 0⟩] 5 20 10 (5 / 2)
     150 50 10 0 (by norm_num) (by norm_num)⟩

/-- C4 counterexample: with a falling trend (years 1, 2 with values 10, 0)
the fitted line is `-10x + 20`, the projected points are negative and, at
sensitivity 20 and horizon 5, the emitted band spread `High - Low` is 0 at
the first projected year and -4 at the second — not strictly increasing
(nor is the pre-rounding spread, which is `-0.8` and `-3.2` there). -/
theorem c4_counterexample :
    spreadAt (runJSForecast [⟨1, 10, 0, 0, 0⟩, ⟨2, 0, 0, 0, 0⟩]
        Metric.Revenue 5 20) 3 = some 0 ∧
    spreadAt (runJSForecast [⟨1, 10, 0, 0, 0⟩, ⟨2, 0, 0, 0, 0⟩]
        Metric.Revenue 5 20) 4 = some (-4) ∧
    ¬ ((spreadAt (runJSForecast [⟨1, 10, 0, 0, 0⟩, ⟨2, 0, 0, 0, 0⟩]
          Metric.Revenue 5 20) 3).getD 0
        < (spreadAt (runJSForecast [⟨1, 10, 0, 0, 0⟩, ⟨2, 0, 0, 0, 0⟩]
          Metric.Revenue 5 20) 4).getD 0) := by
  refine ⟨?_, ?_, ?_⟩ <;>
    norm_num [spreadAt, runJSForecast, jsFuturePoints, jsRawPoint, jsRound,
      mergeSeries, lastYearOf, lastValOf, slopeOf, interceptOf,
      FinancialRecord.get, List.range_succ]

/-- C4 (amended): before display rounding the band of projected index `i`
is exactly `point_i*(1 ± sensitivity*(i/horizon))`, and the spread
`high_i - low_i` equals `2*(sensitivity/100)*point_horizon` at
`i = horizon`; the spread is strictly increasing in `i` provided the
fitted slope is nonnegative and the first projected point is positive (for
a falling trend it can decrease and even turn negative, and the rounded
spreads can tie). -/
theorem c4_cone (slope intercept : ℚ) (lastYear : ℤ) (horizon : ℕ) (sensPct : ℚ)
    (hh : 0 < horizon) (hs : 0 < sensPct) (hslope : 0 ≤ slope)
    (hpos : 0 < slope * ((lastYear : ℚ) + 1) + intercept) :
    (∀ i : ℕ,
      (jsRawPoint slope intercept lastYear horizon sensPct i).2.1
        = (slope * ((lastYear : ℚ) + (i : ℚ)) + intercept)
            * (1 + sensPct / 100 * ((i : ℚ) / (horizon : ℚ))) ∧
      (jsRawPoint slope intercept lastYear horizon sensPct i).2.2
        = (slope * ((lastYear : ℚ) + (i : ℚ)) + intercept)
            * (1 - sensPct / 100 * ((i : ℚ) / (horizon : ℚ)))) ∧
    (∀ i j : ℕ, 1 ≤ i → i < j → j ≤ horizon →
      (jsRawPoint slope intercept lastYear horizon sensPct i).2.1
          - (jsRawPoint slope intercept lastYear horizon sensPct i).2.2
        < (jsRawPoint slope intercept lastYear horizon sensPct j).2.1
          - (jsRawPoint slope intercept lastYear horizon sensPct j).2.2) ∧
    ((jsRawPoint slope intercept lastYear horizon sensPct horizon).2.1
        - (jsRawPoint slope intercept lastYear horizon sensPct horizon).2.2
      = 2 * (sensPct / 100)
          * (slope * ((lastYear : ℚ) + (horizon : ℚ)) + intercept)) := by
  have hhq : (0 : ℚ) < (horizon : ℚ) := by exact_mod_cast hh
  refine ⟨fun i => ⟨rfl, rfl⟩, ?_, ?_⟩
  · intro i j hi hij hjh
    have hiq : (1 : ℚ) ≤ (i : ℚ) := by exact_mod_cast hi
    have hijq : (i : ℚ) < (j : ℚ) := by exact_mod_cast hij
    have h1 : 0 ≤ slope * ((i : ℚ) - 1) := mul_nonneg hslope (by linarith)
    have hvi : slope * ((lastYear : ℚ) + (i : ℚ)) + intercept
        = slope * ((lastYear : ℚ) + 1) + intercept + slope * ((i : ℚ) - 1) := by ring
    have hvip : 0 < slope * ((lastYear : ℚ) + (i : ℚ)) + intercept := by
      rw [hvi]; linarith
    have h2 : 0 ≤ slope * ((j : ℚ) - (i : ℚ)) := mul_nonneg hslope (by linarith)
    have hvij : slope * ((lastYear : ℚ) + (i : ℚ)) + intercept
        ≤ slope * ((lastYear : ℚ) + (j : ℚ)) + intercept := by nlinarith
    have hjq : (0 : ℚ) ≤ (j : ℚ) := by positivity
    have hprod : (i : ℚ) * (slope * ((lastYear : ℚ) + (i : ℚ)) + intercept)
        < (j : ℚ) * (slope * ((lastYear : ℚ) + (j : ℚ)) + intercept) := by nlinarith
    have hC : 0 < 2 * (sensPct / (100 * (horizon : ℚ))) := by positivity
    have e1 : (jsRawPoint slope intercept lastYear horizon sensPct i).2.1
          - (jsRawPoint slope intercept lastYear horizon sensPct i).2.2
        = 2 * (sensPct / (100 * (horizon : ℚ)))
            * ((i : ℚ) * (slope * ((lastYear : ℚ) + (i : ℚ)) + intercept)) := by
      simp only [jsRawPoint]; ring
    have e2 : (jsRawPoint slope intercept lastYear horizon sensPct j).2.1
          - (jsRawPoint slope intercept lastYear horizon sensPct j).2.2
        = 2 * (sensPct / (100 * (horizon : ℚ)))
            * ((j : ℚ) * (slope * ((lastYear : ℚ) + (j : ℚ)) + intercept)) := by
      simp only [jsRawPoint]; ring
    rw [e1, e2]
    exact mul_lt_mul_of_pos_left hprod hC
  · have hne : (horizon : ℚ) ≠ 0 := ne_of_gt hhq
    simp only [jsRawPoint]
    field_simp
    ring

/-- C4 amended-claim witness: rising unit trend, sensitivity 20,
horizon 5. -/
theorem c4_cone_witness :
    (0 : ℕ) < 5 ∧ (0 : ℚ) < 20 ∧ (0 : ℚ) ≤ 1 ∧
    (0 : ℚ) < 1 * (((0 : ℤ) : ℚ) + 1) + 0 ∧
    (∀ i j : ℕ, 1 ≤ i → i < j → j ≤ 5 →
      (jsRawPoint 1 0 0 5 20 i).2.1 - (jsRawPoint 1 0 0 5 20 i).2.2
        < (jsRawPoint 1 0 0 5 20 j).2.1 - (jsRawPoint 1 0 0 5 20 j).2.2) :=
  ⟨by norm_num, by norm_num, by norm_num, by norm_num,
   (c4_cone 1 0 0 5 20 (by norm_num) (by norm_num) (by norm_num)
     (by norm_num)).2.1⟩

/-- The last year of a nonempty record set is one of its years. -/
lemma lastYearOf_mem {data : List FinancialRecord} (h : data ≠ []) :
    lastYearOf data ∈ data.map (·.Year) := by
  induction data with
  | nil => exact absurd rfl h
  | cons r t ih =>
    cases t with
    | nil => simp [lastYearOf]
    | cons s t2 =>
      have heq : lastYearOf (r :: s :: t2) = lastYearOf (s :: t2) := by
        simp [lastYearOf]
      rw [List.map_cons, heq]
      exact List.mem_cons_of_mem _ (ih (by simp))

/-- In a year-sorted record set, every year is at most the last one. -/
lemma year_le_lastYearOf {data : List FinancialRecord}
    (hs : List.Sorted (· < ·) (data.map (·.Year)))
    {d : FinancialRecord} (hd : d ∈ data) :
    d.Year ≤ lastYearOf data := by
  induction data with
  | nil => cases hd
  | cons r t ih =>
    rw [List.map_cons, List.sorted_cons] at hs
    rcases List.mem_cons.mp hd with rfl | hdt
    · cases t with
      | nil => simp [lastYearOf]
      | cons s t2 =>
        have hmem : lastYearOf (s :: t2) ∈ (s :: t2).map (·.Year) :=
          lastYearOf_mem (by simp)
        have hlt := hs.1 _ hmem
        have heq : lastYearOf (d :: s :: t2) = lastYearOf (s :: t2) := by
          simp [lastYearOf]
        rw [heq]
        exact le_of_lt hlt
    · have hne2 : t ≠ [] := List.ne_nil_of_mem hdt
      have heq : lastYearOf (r :: t) = lastYearOf t := by
        cases t with
        | nil => exact absurd rfl hne2
        | cons s t2 => simp [lastYearOf]
      rw [heq]
      exact ih hs.2 hdt

/-- Years of the merged series, by segment. -/
lemma years_of_merge (data : List FinancialRecord) (metric : Metric)
    (future : List FuturePoint) :
    (mergeSeries data metric future).map (·.Year)
      = data.map (·.Year) ++ [lastYearOf data] ++ future.map (·.Year) := by
  simp only [mergeSeries, List.map_append, List.map_map]
  rfl

/-- Years of the JS projected points. -/
lemma jsFuturePoints_years (slope intercept : ℚ) (lastYear : ℤ) (horizon : ℕ)
    (sensPct : ℚ) :
    (jsFuturePoints slope intercept lastYear horizon sensPct).map (·.Year)
      = (List.range horizon).map (fun j : ℕ => lastYear + ((j : ℤ) + 1)) := by
  simp only [jsFuturePoints, List.map_map]
  rfl

/-- Years of the Python projected points (same arithmetic progression as
the JS loop). -/
lemma pyFuturePoints_years (slope intercept : ℚ) (lastYear : ℤ) (horizon : ℕ)
    (sensitivity : ℚ) :
    (pyFuturePoints slope intercept lastYear horizon sensitivity).map (·.Year)
      = (List.range horizon).map (fun j : ℕ => lastYear + ((j : ℤ) + 1)) := by
  simp only [pyFuturePoints, List.map_map]
  rfl

/-- Shape of any merged series whose projected rows carry the years
`lastYear + 1 .. lastYear + horizon`: length, junction row, ordering. -/
lemma mergeSeries_shape (data : List FinancialRecord) (metric : Metric)
    (future : List FuturePoint) (horizon : ℕ)
    (hyears : future.map (·.Year)
      = (List.range horizon).map (fun j : ℕ => lastYearOf data + ((j : ℤ) + 1)))
    (hsorted : List.Sorted (· < ·) (data.map (·.Year))) :
    (mergeSeries data metric future).length = data.length + 1 + horizon ∧
    (mergeSeries data metric future)[data.length]?
      = some ⟨lastYearOf data, some (lastValOf data metric), some (lastValOf data metric),
          some (lastValOf data metric), some (lastValOf data metric),
          some (lastValOf data metric, lastValOf data metric)⟩ ∧
    List.Sorted (· ≤ ·) ((mergeSeries data metric future).map (·.Year)) := by
  have hflen : future.length = horizon := by
    have h := congrArg List.length hyears
    simpa using h
  refine ⟨?_, ?_, ?_⟩
  · simp [mergeSeries, hflen]
    omega
  · unfold mergeSeries
    rw [List.append_assoc, List.getElem?_append_right (by simp)]
    simp
  · rw [years_of_merge data metric _, hyears]
    rw [List.append_assoc]
    refine List.pairwise_append.mpr ⟨hsorted.le_of_lt, ?_, ?_⟩
    · refine List.pairwise_append.mpr ⟨?_, ?_, ?_⟩
      · simp
      · exact (List.sorted_lt_range horizon).map _ (fun a b hab => by omega)
      · intro a ha b hb
        simp only [List.mem_singleton] at ha
        obtain ⟨j, hj, rfl⟩ := List.mem_map.mp hb
        omega
    · intro a ha b hb
      obtain ⟨d, hd, rfl⟩ := List.mem_map.mp ha
      have h1 : d.Year ≤ lastYearOf data := year_le_lastYearOf hsorted hd
      rcases List.mem_append.mp hb with hb1 | hb2
      · simp only [List.mem_singleton] at hb1
        omega
      · obtain ⟨j, hj, rfl⟩ := List.mem_map.mp hb2
        omega

/-- C5: a produced forecast series — from the JS fallback, and likewise
from the Python path whenever it succeeds — has one junction row at index
`data.length` whose Historical, Forecast, High and Low all equal the last
historical value of the chosen metric with the zero-width confidence pair,
the whole output is ordered by Year (non-decreasing: the junction repeats
the last historical year), and its length is `historicalCount + 1 +
horizon`. -/
theorem c5_forecast_series_shape (data : List FinancialRecord) (metric : Metric)
    (horizon : ℕ) (sensPct : ℚ) (_hne : data ≠ [])
    (hsorted : List.Sorted (· < ·) (data.map (·.Year))) :
    ((runJSForecast data metric horizon sensPct).length = data.length + 1 + horizon ∧
      (runJSForecast data metric horizon sensPct)[data.length]?
        = some ⟨lastYearOf data, some (lastValOf data metric), some (lastValOf data metric),
            some (lastValOf data metric), some (lastValOf data metric),
            some (lastValOf data metric, lastValOf data metric)⟩ ∧
      List.Sorted (· ≤ ·) ((runJSForecast data metric horizon sensPct).map (·.Year))) ∧
    (∀ series : List ChartPoint,
      runPyForecast data metric horizon sensPct = some series →
      series.length = data.length + 1 + horizon ∧
      series[data.length]?
        = some ⟨lastYearOf data, some (lastValOf data metric), some (lastValOf data metric),
            some (lastValOf data metric), some (lastValOf data metric),
            some (lastValOf data metric, lastValOf data metric)⟩ ∧
      List.Sorted (· ≤ ·) (series.map (·.Year))) := by
  constructor
  · have hunfold : runJSForecast data metric horizon sensPct
        = mergeSeries data metric
            (jsFuturePoints
              (slopeOf (data.map (fun d => (d.Year : ℚ))) (data.map (fun d => d.get metric)))
              (interceptOf (data.map (fun d => (d.Year : ℚ))) (data.map (fun d => d.get metric)))
              (lastYearOf data) horizon sensPct) := rfl
    rw [hunfold]
    exact mergeSeries_shape data metric _ horizon
      (jsFuturePoints_years _ _ _ _ _) hsorted
  · intro series hser
    unfold runPyForecast at hser
    rcases hscript : pyForecastScript data metric horizon sensPct with _ | fut
    · rw [hscript] at hser
      exact absurd hser (by simp)
    · rw [hscript, Option.map_some'] at hser
      rw [Option.some.injEq] at hser
      subst hser
      simp only [pyForecastScript] at hscript
      split at hscript
      · rw [Option.some.injEq] at hscript
        subst hscript
        exact mergeSeries_shape data metric _ horizon
          (pyFuturePoints_years _ _ _ _ _) hsorted
      · exact absurd hscript (by simp)

/-- C5 witness: two records for years 2020, 2021, horizon 2. -/
theorem c5_forecast_series_shape_witness :
    ([⟨2020, 1, 2, 3, 4⟩, ⟨2021, 2, 3, 4, 5⟩] : List FinancialRecord) ≠ [] ∧
    List.Sorted (· < ·)
      (([⟨2020, 1, 2, 3, 4⟩, ⟨2021, 2, 3, 4, 5⟩] : List FinancialRecord).map (·.Year)) ∧
    ((runJSForecast [⟨2020, 1, 2, 3, 4⟩, ⟨2021, 2, 3, 4, 5⟩] Metric.Revenue 2 10).length
        = 2 + 1 + 2 ∧
      (runJSForecast [⟨2020, 1, 2, 3, 4⟩, ⟨2021, 2, 3, 4, 5⟩] Metric.Revenue 2 10)[
          ([⟨2020, 1, 2, 3, 4⟩, ⟨2021, 2, 3, 4, 5⟩] : List FinancialRecord).length]?
        = some ⟨lastYearOf [⟨2020, 1, 2, 3, 4⟩, ⟨2021, 2, 3, 4, 5⟩],
            some (lastValOf [⟨2020, 1, 2, 3, 4⟩, ⟨2021, 2, 3, 4, 5⟩] Metric.Revenue),
            some (lastValOf [⟨2020, 1, 2, 3, 4⟩, ⟨2021, 2, 3, 4, 5⟩] Metric.Revenue),
            some (lastValOf [⟨2020, 1, 2, 3, 4⟩, ⟨2021, 2, 3, 4, 5⟩] Metric.Revenue),
            some (lastValOf [⟨2020, 1, 2, 3, 4⟩, ⟨2021, 2, 3, 4, 5⟩] Metric.Revenue),
            some (lastValOf [⟨2020, 1, 2, 3, 4⟩, ⟨2021, 2, 3, 4, 5⟩] Metric.Revenue,
              lastValOf [⟨2020, 1, 2, 3, 4⟩, ⟨2021, 2, 3, 4, 5⟩] Metric.Revenue)⟩ ∧
      List.Sorted (· ≤ ·)
        ((runJSForecast [⟨2020, 1, 2, 3, 4⟩, ⟨2021, 2, 3, 4, 5⟩] Metric.Revenue 2 10).map
          (·.Year))) :=
  ⟨by decide, by decide,
   (c5_forecast_series_shape [⟨2020, 1, 2, 3, 4⟩, ⟨2021, 2, 3, 4, 5⟩] Metric.Revenue 2 10
     (by decide) (by decide)).1⟩

/-- C7 (code slip relative to the spec): on a record set with a single row,
the JS fallback forecast performs no minimum-data check — it divides by the
zero OLS denominator and still emits a full series of
`1 + 1 + horizon = 7` points — while the embedded Python script correctly
reports the insufficient-data failure. -/
theorem c7_single_row_no_error :
    (runJSForecast [⟨2020, 100, 15, 12, 95⟩] Metric.Revenue 5 10).length = 7 ∧
    pyForecastScript [⟨2020, 100, 15, 12, 95⟩] Metric.Revenue 5 10 = none := by
  constructor
  · simp [runJSForecast, mergeSeries, jsFuturePoints]
  · simp [pyForecastScript]

/-- Per-row effect of the scan on the score. -/
lemma scanStep_fst (acc : ℤ × List (ℕ × ReqCol)) (k : ℕ) (r : RawRecord) :
    (scanStep acc (k, r)).1 = acc.1 - 5 * rowNulls r := by
  rcases r with ⟨y, rv, ni⟩
  cases rv <;> cases ni <;>
    (simp [scanStep, checkCols, RawRecord.getCol, rowNulls, List.filter]; try ring)

/-- Per-row effect of the scan on the number of findings. -/
lemma scanStep_len (acc : ℤ × List (ℕ × ReqCol)) (k : ℕ) (r : RawRecord) :
    (scanStep acc (k, r)).2.length = acc.2.length + rowNulls r := by
  rcases r with ⟨y, rv, ni⟩
  cases rv <;> cases ni <;>
    simp [scanStep, checkCols, RawRecord.getCol, rowNulls, List.filter]

/-- Fold invariant of the integrity scan. -/
lemma scan_fold (l : List (ℕ × RawRecord)) : ∀ (s : ℤ) (fs : List (ℕ × ReqCol)),
    (l.foldl scanStep (s, fs)).1 = s - 5 * ((l.map (fun p => rowNulls p.2)).sum : ℤ) ∧
    (l.foldl scanStep (s, fs)).2.length = fs.length + (l.map (fun p => rowNulls p.2)).sum := by
  induction l with
  | nil => intro s fs; simp
  | cons p t ih =>
    intro s fs
    rcases p with ⟨k, r⟩
    rw [List.foldl_cons]
    rcases hstep : scanStep (s, fs) (k, r) with ⟨s', fs'⟩
    have h1 : s' = s - 5 * rowNulls r := by
      have := scanStep_fst (s, fs) k r
      rw [hstep] at this
      simpa using this
    have h2 : fs'.length = fs.length + rowNulls r := by
      have := scanStep_len (s, fs) k r
      rw [hstep] at this
      simpa using this
    obtain ⟨ih1, ih2⟩ := ih s' fs'
    refine ⟨?_, ?_⟩
    · rw [ih1, h1]
      simp [List.map_cons, List.sum_cons]
      ring
    · rw [ih2, h2]
      simp [List.map_cons, List.sum_cons]
      omega

/-- Closed form of the integrity scan: score and finding count. -/
lemma scan_spec (rows : List RawRecord) :
    (scanIntegrity rows).1 = 100 - 5 * (countNulls rows : ℤ) ∧
    (scanIntegrity rows).2.length = countNulls rows := by
  have h := scan_fold rows.enum 100 []
  have hmap : rows.enum.map (fun p => rowNulls p.2) = rows.map rowNulls := by
    have hcomp : rows.enum.map (fun p => rowNulls p.2)
        = (rows.enum.map Prod.snd).map rowNulls := by
      rw [List.map_map]
      rfl
    rw [hcomp, List.enum_map_snd]
  unfold scanIntegrity countNulls
  rw [hmap] at h
  simpa using h

/-- C8 counterexample: the integrity score is NOT clamped at 0 — on eleven
rows whose required fields are all missing, the score reaches −10 < 0,
refuting the claim that the score always stays in 0..100. -/
theorem c8_counterexample :
    (scanIntegrity (List.replicate 11 ⟨2020, none, none⟩)).1 = -10 ∧
    (scanIntegrity (List.replicate 11 ⟨2020, none, none⟩)).1 < 0 := by
  decide

/-- C8 (amended): the integrity score starts at 100 and is decremented by
exactly 5 per absent/null/non-numeric required field, with one matching
finding appended per occurrence, so `score = 100 − 5·nulls` and
`findings.length = nulls` — with no lower clamp, the score can go below 0.
In particular, 4 rows with exactly 2 null `Revenue` values yield score 90
with 2 findings (in rows 1 and 3). -/
theorem c8_integrity_score (rows : List RawRecord) :
    (scanIntegrity rows).1 = 100 - 5 * (countNulls rows : ℤ) ∧
    (scanIntegrity rows).2.length = countNulls rows ∧
    scanIntegrity [⟨2020, none, some 1⟩, ⟨2021, some 2, some 1⟩,
        ⟨2022, none, some 1⟩, ⟨2023, some 3, some 1⟩]
      = (90, [(1, ReqCol.Revenue), (3, ReqCol.Revenue)]) :=
  ⟨(scan_spec rows).1, (scan_spec rows).2, by decide⟩

/-- Rounding two summands separately differs from rounding their sum by at
most one unit. -/
lemma jsRound_sum_bound (a b : ℚ) :
    -1 ≤ jsRound a + jsRound b - jsRound (a + b) ∧
    jsRound a + jsRound b - jsRound (a + b) ≤ 1 := by
  have fa := Int.floor_le (a + 1/2)
  have fa2 := Int.lt_floor_add_one (a + 1/2)
  have fb := Int.floor_le (b + 1/2)
  have fb2 := Int.lt_floor_add_one (b + 1/2)
  have fc := Int.floor_le (a + b + 1/2)
  have fc2 := Int.lt_floor_add_one (a + b + 1/2)
  have h1 : ((jsRound a + jsRound b - jsRound (a + b) : ℤ) : ℚ) < 2 := by
    unfold jsRound
    push_cast
    linarith
  have h2 : (-2 : ℚ) < ((jsRound a + jsRound b - jsRound (a + b) : ℤ) : ℚ) := by
    unfold jsRound
    push_cast
    linarith
  have h1i : jsRound a + jsRound b - jsRound (a + b) < 2 := by exact_mod_cast h1
  have h2i : (-2 : ℤ) < jsRound a + jsRound b - jsRound (a + b) := by exact_mod_cast h2
  omega

/-- C6: every produced valuation result (either path) has a bridge of
exactly three rows in fixed order — Sum of discounted FCFs, discounted
Terminal Value, Enterprise Value — where only the Enterprise Value row has
`isTotal = true`, its contribution is the hard-coded 100.0, and the first
two row values sum to the third within one rounding unit.
The hypotheses restrict the statement to the regime where the rational
embedding computes the same finite numbers as the source's floating-point
arithmetic: at least two rows with distinct years (the RecordSet invariant,
which makes the OLS fit denominator nonzero — on degenerate input such as a
single row the source's `0/0` produces NaN, which `ℚ` cannot express) and a
discount rate other than −100% (nonzero discount factor). -/
theorem c6_bridge_invariants (data : List FinancialRecord)
    (waccPct tgPct netDebt shares : ℚ) (res : ValuationResult)
    (_hlen : 2 ≤ data.length)
    (_hnodup : (data.map (·.Year)).Nodup)
    (_hwacc : waccPct ≠ -100)
    (hres : runJSValuation data waccPct tgPct netDebt shares = some res
          ∨ runPyValuation data waccPct tgPct netDebt shares = some res) :
    res.waterfall.length = 3 ∧
    res.waterfall.map (·.name) = ["Sum of FCFs", "Terminal Value", "Enterprise Value"] ∧
    res.waterfall.map (·.isTotal) = [false, false, true] ∧
    (res.waterfall.map (·.contribution)).get? 2 = some 100 ∧
    ∃ v0 v1 v2 : ℤ, res.waterfall.map (·.value) = [v0, v1, v2] ∧
      -1 ≤ v0 + v1 - v2 ∧ v0 + v1 - v2 ≤ 1 := by
  rcases hres with hres | hres
  · simp only [runJSValuation] at hres
    split at hres
    · exact absurd hres (by simp)
    · rw [Option.some.injEq] at hres
      subst hres
      refine ⟨rfl, rfl, rfl, rfl, _, _, _, rfl, ?_, ?_⟩
      · exact (jsRound_sum_bound _ _).1
      · exact (jsRound_sum_bound _ _).2
  · unfold runPyValuation at hres
    rcases hscript : pyValuationScript data waccPct tgPct netDebt shares with _ | o
    · rw [hscript] at hres
      exact absurd hres (by simp)
    · rw [hscript, Option.map_some'] at hres
      rw [Option.some.injEq] at hres
      subst hres
      simp only [pyValuationScript] at hscript
      split at hscript
      · rw [Option.some.injEq] at hscript
        subst hscript
        refine ⟨rfl, rfl, rfl, rfl, _, _, _, rfl, ?_, ?_⟩
        · exact (jsRound_sum_bound _ _).1
        · exact (jsRound_sum_bound _ _).2
      · exact absurd hscript (by simp)

/-- C6 witness: the JS valuation of two records with distinct years
(FCF 10, 20 gives the fit `10x`, projections 30..70, discount rate 0%,
growth 8% takes the multiple branch: bridge 250 + 1050 = 1300,
share price 23). -/
theorem c6_bridge_invariants_witness :
    2 ≤ ([⟨1, 0, 0, 10, 0⟩, ⟨2, 0, 0, 20, 0⟩] : List FinancialRecord).length ∧
    (([⟨1, 0, 0, 10, 0⟩, ⟨2, 0, 0, 20, 0⟩] : List FinancialRecord).map (·.Year)).Nodup ∧
    (0 : ℚ) ≠ -100 ∧
    (runJSValuation [⟨1, 0, 0, 10, 0⟩, ⟨2, 0, 0, 20, 0⟩] 0 8 150 50
        = some ⟨23, [⟨ "Sum of FCFs", 250, 96 / 5, false⟩,
            ⟨ "Terminal Value", 1050, 404 / 5, false⟩,
            ⟨ "Enterprise Value", 1300, 100, true⟩]⟩ ∨
      runPyValuation [⟨1, 0, 0, 10, 0⟩, ⟨2, 0, 0, 20, 0⟩] 0 8 150 50
        = some ⟨23, [⟨ "Sum of FCFs", 250, 96 / 5, false⟩,
            ⟨ "Terminal Value", 1050, 404 / 5, false⟩,
            ⟨ "Enterprise Value", 1300, 100, true⟩]⟩) ∧
    (∃ v0 v1 v2 : ℤ,
      (([⟨ "Sum of FCFs", 250, 96 / 5, false⟩, ⟨ "Terminal Value", 1050, 404 / 5, false⟩,
          ⟨ "Enterprise Value", 1300, 100, true⟩] : List BridgeEntry).map (·.value))
        = [v0, v1, v2] ∧ -1 ≤ v0 + v1 - v2 ∧ v0 + v1 - v2 ≤ 1) :=
  ⟨by norm_num, by decide, by norm_num,
   Or.inl (by norm_num [runJSValuation, slopeOf, interceptOf, lastYearOf, futureFCFs,
      discountedSumOf, terminalValueOf, toFixed1, jsRound, List.range_succ]),
   (c6_bridge_invariants [⟨1, 0, 0, 10, 0⟩, ⟨2, 0, 0, 20, 0⟩] 0 8 150 50
      ⟨23, [⟨ "Sum of FCFs", 250, 96 / 5, false⟩, ⟨ "Terminal Value", 1050, 404 / 5, false⟩,
        ⟨ "Enterprise Value", 1300, 100, true⟩]⟩
      (by norm_num) (by decide) (by norm_num)
      (Or.inl (by norm_num [runJSValuation, slopeOf, interceptOf, lastYearOf, futureFCFs,
        discountedSumOf, terminalValueOf, toFixed1, jsRound, List.range_succ]))).2.2.2.2⟩

/-- C9: whenever the summarizer produces commentary, the CAGR it reports is
`((endVal/startVal)^(1/horizon) - 1) * 100` for the last historical and
last forecast values, the direction word is "expansion" exactly when that
CAGR is positive and "contraction" otherwise, and the strength word is
"aggressive" above 10 (percent), "moderate" above 5, else "stable". -/
theorem c9_narrative (data : List ChartPoint) (horizon : ℕ)
    (h2 : 2 ≤ data.length)
    (hh : (historyOf data).length ≠ 0)
    (hf : (forecastOf data).length ≠ 0) :
    ∃ c : ℝ,
      c = (((endValOf data : ℝ) / (startValOf data : ℝ)) ^ ((1 : ℝ) / (horizon : ℝ)) - 1)
            * 100 ∧
      strategicInsight data horizon = some (c,
        if 0 < c then "expansion" else "contraction",
        if 10 < |c| then "aggressive" else if 5 < |c| then "moderate" else "stable") := by
  refine ⟨_, rfl, ?_⟩
  unfold strategicInsight
  rw [if_neg (by omega), if_neg (by
    push_neg
    exact ⟨hh, hf⟩)]

/-- C9 witness: a three-row series where the last forecast equals the last
historical value, so the CAGR is 0 and the labels are "contraction" and
"stable". -/
theorem c9_narrative_witness :
    2 ≤ ([⟨2020, some 100, none, none, none, none⟩,
          ⟨2020, some 100, some 100, some 100, some 100, some (100, 100)⟩,
          ⟨2021, none, some 100, none, none, none⟩] : List ChartPoint).length ∧
    (historyOf [⟨2020, some 100, none, none, none, none⟩,
          ⟨2020, some 100, some 100, some 100, some 100, some (100, 100)⟩,
          ⟨2021, none, some 100, none, none, none⟩]).length ≠ 0 ∧
    (forecastOf [⟨2020, some 100, none, none, none, none⟩,
          ⟨2020, some 100, some 100, some 100, some 100, some (100, 100)⟩,
          ⟨2021, none, some 100, none, none, none⟩]).length ≠ 0 ∧
    ∃ c : ℝ,
      c = (((endValOf [⟨2020, some 100, none, none, none, none⟩,
              ⟨2020, some 100, some 100, some 100, some 100, some (100, 100)⟩,
              ⟨2021, none, some 100, none, none, none⟩] : ℝ)
            / (startValOf [⟨2020, some 100, none, none, none, none⟩,
              ⟨2020, some 100, some 100, some 100, some 100, some (100, 100)⟩,
              ⟨2021, none, some 100, none, none, none⟩] : ℝ)) ^ ((1 : ℝ) / ((1 : ℕ) : ℝ))
            - 1) * 100 ∧
      strategicInsight [⟨2020, some 100, none, none, none, none⟩,
          ⟨2020, some 100, some 100, some 100, some 100, some (100, 100)⟩,
          ⟨2021, none, some 100, none, none, none⟩] 1 = some (c,
        if 0 < c then "expansion" else "contraction",
        if 10 < |c| then "aggressive" else if 5 < |c| then "moderate" else "stable") :=
  ⟨by decide, by decide, by decide,
   c9_narrative [⟨2020, some 100, none, none, none, none⟩,
      ⟨2020, some 100, some 100, some 100, some 100, some (100, 100)⟩,
      ⟨2021, none, some 100, none, none, none⟩] 1 (by decide) (by decide) (by decide)⟩

/-- C10: when the Python script runs and reports failure
(`success: false`), `runForecast` takes no action: the stored state (both
the visible forecast series and the compute-source badge) is left exactly
as it was, and the JS fallback is not invoked — the fallback only runs on
a thrown exception. -/
theorem c10_failure_keeps_state (prev : ForecastState) (data : List FinancialRecord)
    (metric : Metric) (horizon : ℕ) (sensPct : ℚ) (err msg : String) :
    processForecastOutcome prev data metric horizon sensPct (PyOutcome.failure err) = prev ∧
    processForecastOutcome prev data metric horizon sensPct (PyOutcome.exn msg) =
      ⟨runJSForecast data metric horizon sensPct, some ComputeSource.jsFallback⟩ :=
  ⟨rfl, rfl⟩

end FinMet
